import Mathlib

/-!
Verification of the frame-ingestion core of LiveSerialPlotter against its
specification.  The definitions below are a shallow embedding of
`LiveDataSource.py`: Python strings are modelled as `List Char`, the builtin
`float()` conversion as a decidable parser into exact rationals (binary64
rounding is abstracted away; the digit-separator `_` and non-ASCII digits are
outside the model), and the side effects of the reader loop (queue appends,
warnings, the package indicator) as an explicit result datatype.
-/

namespace LiveSerialPlotter

/-! ### Python string primitives -/

/-- The ASCII whitespace characters removed by Python's `str.strip()`. -/
def isPySpace (c : Char) : Bool :=
  c == ' ' || c == '\t' || c == '\n' || c == '\r' || c == '\x0b' || c == '\x0c'

/-- Python `str.strip()`: drop leading and trailing whitespace. -/
def pyStrip (cs : List Char) : List Char :=
  ((cs.dropWhile isPySpace).reverse.dropWhile isPySpace).reverse

/-- Python `s.find(c)` for a single-character needle, as an `Option`:
`some i` is the lowest index holding `c`, `none` mirrors the return value -1. -/
def findIdxCh (c : Char) : List Char → Option Nat
  | [] => none
  | x :: xs => if x = c then some 0 else (findIdxCh c xs).map (· + 1)

/-- Python `s.rfind(c)` for a single-character needle, as an `Option`:
`some i` is the highest index holding `c`, `none` mirrors the return value -1. -/
def rfindIdx (c : Char) : List Char → Option Nat
  | [] => none
  | x :: xs =>
    match rfindIdx c xs with
    | some i => some (i + 1)
    | none => if x = c then some 0 else none

/-- Python `s.split(" ")`: split on every single space, keeping empty pieces;
`"".split(" ")` is `[""]`. -/
def splitSpace : List Char → List (List Char)
  | [] => [[]]
  | c :: rest =>
    if c = ' ' then [] :: splitSpace rest
    else
      match splitSpace rest with
      | t :: ts => (c :: t) :: ts
      | [] => [[c]]

/-! ### Python `float()` -/

/-- Result of a successful Python `float()` conversion.  Finite values are kept
as exact rationals. -/
inductive PyFloat where
  | finite (q : ℚ)
  | inf
  | neginf
  | nan
deriving DecidableEq

/-- Negation of a parsed float, for a leading `'-'` sign. -/
def PyFloat.neg : PyFloat → PyFloat
  | .finite q => .finite (-q)
  | .inf => .neginf
  | .neginf => .inf
  | .nan => .nan

/-- Numeric value of a list of ASCII digits. -/
def digitsToNat (ds : List Char) : Nat :=
  ds.foldl (fun a c => 10 * a + (c.toNat - 48)) 0

/-- Parse an optional exponent suffix `e[±]digits`; `some e` only when the
whole remaining input is consumed. -/
def parseExpPart : List Char → Option Int
  | [] => some 0
  | c :: rest =>
    if c = 'e' || c = 'E' then
      let (sgn, rest2) : Int × List Char :=
        match rest with
        | '+' :: r => (1, r)
        | '-' :: r => (-1, r)
        | r => (1, r)
      let ds := rest2.takeWhile Char.isDigit
      let rest3 := rest2.dropWhile Char.isDigit
      if ds ≠ [] ∧ rest3 = [] then some (sgn * (digitsToNat ds : Int)) else none
    else none

/-- Exact value of the literal `ip.fp × 10^e`, as a rational. -/
def decimalValue (ip fp : List Char) (e : Int) : ℚ :=
  let mant : Int := (digitsToNat ip * 10 ^ fp.length + digitsToNat fp : Nat)
  if 0 ≤ e then mkRat (mant * (10 : Int) ^ e.toNat) (10 ^ fp.length)
  else mkRat mant (10 ^ (fp.length + e.natAbs))

/-- Parse an unsigned decimal literal `digits[.digits][exp]` or
`.digits[exp]`, requiring at least one mantissa digit. -/
def parseDecimalNum (cs : List Char) : Option ℚ :=
  let ip := cs.takeWhile Char.isDigit
  let r1 := cs.dropWhile Char.isDigit
  match r1 with
  | '.' :: r2 =>
    let fp := r2.takeWhile Char.isDigit
    let r3 := r2.dropWhile Char.isDigit
    if ip = [] ∧ fp = [] then none
    else (parseExpPart r3).map (decimalValue ip fp)
  | _ =>
    if ip = [] then none
    else (parseExpPart r1).map (decimalValue ip [])

/-- Parse the part of a float literal after the optional sign: the
case-insensitive specials `inf`, `infinity`, `nan`, or a decimal literal. -/
def parseUnsignedFloat (cs : List Char) : Option PyFloat :=
  let low := cs.map Char.toLower
  if low = "inf".data ∨ low = "infinity".data then some .inf
  else if low = "nan".data then some .nan
  else (parseDecimalNum cs).map .finite

/-- Python `float(s)`: strip whitespace, optional sign, then an unsigned
float literal; `none` models a raised `ValueError`. -/
def pyFloat (cs : List Char) : Option PyFloat :=
  match pyStrip cs with
  | '+' :: r => parseUnsignedFloat r
  | '-' :: r => (parseUnsignedFloat r).map PyFloat.neg
  | r => parseUnsignedFloat r

/-- The list comprehension `[float(v) for v in splits]`: all-or-nothing — the
first `ValueError` aborts the whole conversion. -/
def floatAll : List (List Char) → Option (List PyFloat)
  | [] => some []
  | t :: ts =>
    match pyFloat t, floatAll ts with
    | some v, some vs => some (v :: vs)
    | _, _ => none

/-! ### The reader loop body (`LiveDataSource.run`, one iteration) -/

/-- Observable outcome of one iteration of the reader loop on a decoded line.
`emptyLine`, `noOpen` and `noClose` are the three `continue` paths (the latter
two after a warning and a bad package indicator); `converted` reaches
`self.window.data.append` with the parsed floats, `convertFailed` reaches the
same `append` with the unconverted string tokens after the `ValueError`
warning. -/
inductive StepResult where
  | emptyLine
  | noOpen
  | noClose
  | converted (vals : List PyFloat)
  | convertFailed (splits : List (List Char))
deriving DecidableEq

/-- The body of `LiveDataSource.run` for one decoded line, following the
source statement by statement: strip; empty check; `l = rawdata.rfind(">")`;
when `requireBrackets` is set, `r = rawdata.find("<")`, otherwise
`r = len(rawdata[l + 1:])`; `splits = rawdata[l + 1 : r].split(" ")`; float
conversion of every token, the original strings surviving a `ValueError`. -/
def runBody (requireBrackets : Bool) (raw : List Char) : StepResult :=
  let rawdata := pyStrip raw
  if rawdata.length = 0 then .emptyLine
  else
    match rfindIdx '>' rawdata with
    | none => .noOpen
    | some l =>
      match (if requireBrackets then findIdxCh '<' rawdata
             else some (rawdata.drop (l + 1)).length) with
      | none => .noClose
      | some r =>
        let splits := splitSpace ((rawdata.take r).drop (l + 1))
        match floatAll splits with
        | some vals => .converted vals
        | none => .convertFailed splits

/-- A row appended to `self.window.data`: parsed floats on success, the raw
string tokens after a failed conversion. -/
abbrev Row := Except (List (List Char)) (List PyFloat)

instance {ε α : Type} [DecidableEq ε] [DecidableEq α] : DecidableEq (Except ε α) := fun a b =>
  match a, b with
  | .ok x, .ok y =>
    if h : x = y then isTrue (by rw [h]) else isFalse (by intro hc; cases hc; exact h rfl)
  | .error x, .error y =>
    if h : x = y then isTrue (by rw [h]) else isFalse (by intro hc; cases hc; exact h rfl)
  | .ok _, .error _ => isFalse (by intro hc; cases hc)
  | .error _, .ok _ => isFalse (by intro hc; cases hc)

/-- What one iteration appends to `self.window.data` (`none`: nothing). -/
def appendedRow : StepResult → Option Row
  | .converted vals => some (.ok vals)
  | .convertFailed splits => some (.error splits)
  | _ => none

/-- Whether the iteration emits a `logger.warning`. -/
def warns : StepResult → Bool
  | .noOpen => true
  | .noClose => true
  | .convertFailed _ => true
  | _ => false

/-- The package-indicator update of the iteration (`none`: untouched). -/
def indicatorSet : StepResult → Option Bool
  | .emptyLine => none
  | .noOpen => some false
  | .noClose => some false
  | .converted _ => some true
  | .convertFailed _ => some false

/-- One loop iteration's inputs: the `IS_SERIAL_CONNECTED` flag as sampled at
the `while` head, the `requirebrackets` GUI variable, and the decoded line the
blocking `readline` would return. -/
structure IterIn where
  flag : Bool
  requireBrackets : Bool
  line : List Char

/-- `LiveDataSource.run` over a finite trace of iteration inputs: the rows
appended to `self.window.data`, in order.  A `false` flag at a loop head ends
the loop; later inputs are never read. -/
def run : List IterIn → List Row
  | [] => []
  | it :: rest =>
    if it.flag then (appendedRow (runBody it.requireBrackets it.line)).toList ++ run rest
    else []

/-! ### Lifecycle: connect, disconnect, closeAllSerialPorts -/

/-- The state fields of `LiveDataSource` the lifecycle claims are about. -/
structure LdsState where
  IS_SERIAL_CONNECTED : Bool
  io_thread : Option Unit
deriving DecidableEq

/-- Observable outcome of `LiveDataSource.connectToSerial`.  `openOk` below
abstracts whether `serial.Serial(port, baudrate, timeout=1)` (together with
the preceding widget reads and `flushInput`) succeeds; the `try` block catches
every failure. -/
structure ConnectOut where
  state : LdsState
  retval : Option Int
  warned : Bool
  threadStarted : Bool
  openAttempts : Nat
deriving DecidableEq

/-- `LiveDataSource.connectToSerial`: one open attempt; on failure, warn,
show the disconnected label and return -1 touching neither
`IS_SERIAL_CONNECTED` nor `io_thread`; on success set the flag and start the
reader thread. -/
def connectToSerial (openOk : Bool) (st : LdsState) : ConnectOut :=
  if openOk then
    { state := { IS_SERIAL_CONNECTED := true, io_thread := some () }
      retval := none
      warned := false
      threadStarted := true
      openAttempts := 1 }
  else
    { state := st
      retval := some (-1)
      warned := true
      threadStarted := false
      openAttempts := 1 }

/-- The sequenced effects of `LiveDataSource.disconnectFromSerial`. -/
inductive StopEvent where
  | closeSerial
  | setLabelDisconnected
  | clearFlag
  | joinReader
deriving DecidableEq, BEq

/-- `LiveDataSource.disconnectFromSerial`: when connected, close the port,
show the disconnected label and clear `IS_SERIAL_CONNECTED`, in that order;
then, when a reader thread exists, join it.  Returns the new state and the
ordered effect list. -/
def disconnectFromSerial (st : LdsState) : LdsState × List StopEvent :=
  let (st1, evs1) :=
    if st.IS_SERIAL_CONNECTED then
      ({ st with IS_SERIAL_CONNECTED := false },
       [StopEvent.closeSerial, StopEvent.setLabelDisconnected, StopEvent.clearFlag])
    else (st, [])
  let evs2 := if st1.io_thread.isSome then [StopEvent.joinReader] else []
  (st1, evs1 ++ evs2)

/-- One `p.close()` attempt inside `closeAllSerialPorts`, wrapped in the
source's bare `try`/`except: continue`: every exception is swallowed. -/
def tryClosePort (close : α → Except ε Unit) (p : α) : Except ε Unit :=
  match close p with
  | .ok _ => .ok ()
  | .error _ => .ok ()

/-- The `for p in ports` loop of `closeAllSerialPorts`; an uncaught exception
from an iteration would propagate as `.error`. -/
def closePortsLoop (close : α → Except ε Unit) : List α → Except ε Unit
  | [] => .ok ()
  | p :: rest =>
    match tryClosePort close p with
    | .ok _ => closePortsLoop close rest
    | .error e => .error e

/-- `LiveDataSource.closeAllSerialPorts` on an enumerated port list: run the
close loop, then set `IS_SERIAL_CONNECTED = False`; the returned flag value is
the field's value at normal return. -/
def closeAllSerialPorts (ports : List α) (close : α → Except ε Unit) : Except ε Bool :=
  match closePortsLoop close ports with
  | .ok _ => .ok false
  | .error e => .error e

/-! ### SyntheticGenerator -/

/-- State of the synthetic generator's feedback loop: the current sleep
target, the monotonic timestamp of the previous send, and the wrapped index
counter.  Time is modelled as exact rational seconds. -/
structure GenState where
  st : ℚ
  lastT : ℚ
  idx : Nat
deriving DecidableEq

/-- Modelled from the spec: the floor clamp of the generator's sleep target,
"a small constant (e.g. 5ms)"; no generator code is under src.  -/
def genFloor : ℚ := 5 / 1000

/-- Modelled from the spec: the nominal inter-send interval
`delay = 1 / ratePerSecond`; no generator code is under src. -/
def genDelay (ratePerSecond : ℚ) : ℚ := 1 / ratePerSecond

/-- Modelled from the spec: one iteration of the SyntheticGenerator loop; no
generator code is under src.  Given the monotonic clock value `now` at this
iteration, compute the elapsed time since the previous send, the scheduling
error `err = actual - st`, emit the jitter `delay - st`, advance the wrapped
index, and set the next sleep target `st = max(floor, delay + err)`. -/
def genStep (ratePerSecond : ℚ) (wrap : Nat) (s : GenState) (now : ℚ) : GenState × ℚ :=
  let delay := genDelay ratePerSecond
  let actual := now - s.lastT
  let err := actual - s.st
  let jitter := delay - s.st
  ({ st := max genFloor (delay + err), lastT := now, idx := (s.idx + 1) % wrap }, jitter)

/-! ### Lemmas about the string primitives -/

theorem findIdxCh_eq_none_of_not_mem (c : Char) :
    ∀ (cs : List Char), c ∉ cs → findIdxCh c cs = none := by
  intro cs
  induction cs with
  | nil => intro _; rfl
  | cons x xs ih =>
    intro h
    have hx : ¬x = c := fun hc => h (by simp [hc])
    have hxs : c ∉ xs := fun hc => h (by simp [hc])
    simp [findIdxCh, hx, ih hxs]

theorem findIdxCh_isSome_of_mem (c : Char) :
    ∀ (cs : List Char), c ∈ cs → (findIdxCh c cs).isSome := by
  intro cs
  induction cs with
  | nil => intro h; simp at h
  | cons x xs ih =>
    intro h
    by_cases hx : x = c
    · simp [findIdxCh, hx]
    · have hxs : c ∈ xs := by
        rcases List.mem_cons.mp h with h1 | h2
        · exact (hx h1.symm).elim
        · exact h2
      rcases Option.isSome_iff_exists.mp (ih hxs) with ⟨i, hi⟩
      simp [findIdxCh, hx, hi]

theorem rfindIdx_eq_none_of_not_mem (c : Char) :
    ∀ (cs : List Char), c ∉ cs → rfindIdx c cs = none := by
  intro cs
  induction cs with
  | nil => intro _; rfl
  | cons x xs ih =>
    intro h
    have hx : ¬x = c := fun hc => h (by simp [hc])
    have hxs : c ∉ xs := fun hc => h (by simp [hc])
    simp [rfindIdx, hx, ih hxs]

theorem rfindIdx_isSome_of_mem (c : Char) :
    ∀ (cs : List Char), c ∈ cs → (rfindIdx c cs).isSome := by
  intro cs
  induction cs with
  | nil => intro h; simp at h
  | cons x xs ih =>
    intro h
    unfold rfindIdx
    rcases h' : rfindIdx c xs with _ | k
    · have hxs : c ∉ xs := by
        intro hc
        have := ih hc
        rw [h'] at this
        simp at this
      have hx : x = c := by
        rcases List.mem_cons.mp h with h1 | h2
        · exact h1.symm
        · exact (hxs h2).elim
      simp [hx]
    · simp

theorem not_mem_of_rfindIdx_eq_none (c : Char) (cs : List Char)
    (h : rfindIdx c cs = none) : c ∉ cs := by
  intro hc
  have := rfindIdx_isSome_of_mem c cs hc
  rw [h] at this
  simp at this

theorem rfindIdx_last (c : Char) :
    ∀ (cs : List Char) (i : Nat), rfindIdx c cs = some i →
      cs.get? i = some c ∧ ∀ j, i < j → cs.get? j ≠ some c := by
  intro cs
  induction cs with
  | nil => intro i h; simp [rfindIdx] at h
  | cons x xs ih =>
    intro i h
    unfold rfindIdx at h
    rcases h' : rfindIdx c xs with _ | k
    · rw [h'] at h
      by_cases hx : x = c
      · rw [if_pos hx] at h
        have h0 : i = 0 := by
          have := Option.some_injective _ h.symm
          omega
        subst h0
        refine ⟨by simp [hx], ?_⟩
        intro j hj hget
        rcases j with _ | j'
        · omega
        · have hmem : c ∈ xs := List.get?_mem (by simpa using hget)
          exact (not_mem_of_rfindIdx_eq_none c xs h') hmem
      · rw [if_neg hx] at h
        exact absurd h (by simp)
    · rw [h'] at h
      have hk : i = k + 1 := by
        have := Option.some_injective _ h.symm
        omega
      subst hk
      obtain ⟨hget, hafter⟩ := ih k h'
      refine ⟨by simpa using hget, ?_⟩
      intro j hj hget'
      rcases j with _ | j'
      · omega
      · exact hafter j' (by omega) (by simpa using hget')

theorem rfindIdx_cons_self_of_not_mem (c : Char) (xs : List Char) (h : c ∉ xs) :
    rfindIdx c (c :: xs) = some 0 := by
  unfold rfindIdx
  rw [rfindIdx_eq_none_of_not_mem c xs h]
  simp

theorem findIdxCh_append_last (c : Char) :
    ∀ (l : List Char), c ∉ l → findIdxCh c (l ++ [c]) = some l.length := by
  intro l
  induction l with
  | nil => intro _; simp [findIdxCh]
  | cons x xs ih =>
    intro h
    have hx : x ≠ c := fun hc => h (by simp [hc])
    have hxs : c ∉ xs := fun hc => h (by simp [hc])
    simp [findIdxCh, hx, ih hxs]

theorem splitSpace_no_space :
    ∀ (l : List Char), ' ' ∉ l → splitSpace l = [l] := by
  intro l
  induction l with
  | nil => intro _; rfl
  | cons x xs ih =>
    intro h
    have hx : x ≠ ' ' := fun hc => h (by simp [hc])
    have hxs : ' ' ∉ xs := fun hc => h (by simp [hc])
    simp [splitSpace, hx, ih hxs]

theorem splitSpace_append (r : List Char) :
    ∀ (l : List Char), ' ' ∉ l → splitSpace (l ++ ' ' :: r) = l :: splitSpace r := by
  intro l
  induction l with
  | nil => intro _; simp [splitSpace]
  | cons x xs ih =>
    intro h
    have hx : x ≠ ' ' := fun hc => h (by simp [hc])
    have hxs : ' ' ∉ xs := fun hc => h (by simp [hc])
    simp [splitSpace, hx, ih hxs]

theorem pyStrip_of_ends (a b : Char) (l : List Char)
    (ha : isPySpace a = false) (hb : isPySpace b = false) :
    pyStrip (a :: (l ++ [b])) = a :: (l ++ [b]) := by
  simp [pyStrip, List.dropWhile_cons, ha, hb, List.reverse_append]

/-- Helper: once the open index `l` and end index `r` are resolved, the loop
body splits the slice and converts it, appending strings on failure. -/
theorem runBody_parse_result (rb : Bool) (raw : List Char) (l r : Nat)
    (h0 : ¬((pyStrip raw).length = 0))
    (hl : rfindIdx '>' (pyStrip raw) = some l)
    (hr : (if rb then findIdxCh '<' (pyStrip raw)
           else some (((pyStrip raw).drop (l + 1)).length)) = some r) :
    runBody rb raw =
      match floatAll (splitSpace (((pyStrip raw).take r).drop (l + 1))) with
      | some vals => .converted vals
      | none => .convertFailed (splitSpace (((pyStrip raw).take r).drop (l + 1))) := by
  have hr' := hr
  simp only [List.length_drop] at hr'
  simp [runBody, h0, hl, hr']

/-- Helper: with both delimiters resolved the result is never `noClose`. -/
theorem runBody_ne_noClose (rb : Bool) (raw : List Char) (l r : Nat)
    (h0 : ¬((pyStrip raw).length = 0))
    (hl : rfindIdx '>' (pyStrip raw) = some l)
    (hr : (if rb then findIdxCh '<' (pyStrip raw)
           else some (((pyStrip raw).drop (l + 1)).length)) = some r) :
    runBody rb raw ≠ .noClose := by
  rw [runBody_parse_result rb raw l r h0 hl hr]
  rcases floatAll (splitSpace (((pyStrip raw).take r).drop (l + 1))) with _ | vals <;> simp

/-! ### Claim theorems -/

/-- Claim C1.  On the frame `>1 x 3<` (token `x` fails float conversion) the
reader warns and marks the indicator bad, but — contrary to the claim that the
entire frame is discarded — it still appends the unconverted string tokens to
the consumer-visible data: the `append` sits outside the `try`/`except`. -/
theorem invalid_token_frame_still_appended :
    runBody true (">1 x 3<".data) = .convertFailed ["1".data, "x".data, "3".data]
    ∧ warns (runBody true (">1 x 3<".data)) = true
    ∧ appendedRow (runBody true (">1 x 3<".data)) =
        some (.error ["1".data, "x".data, "3".data]) := by
  decide

/-- Claim C2, counterexample.  The well-formed named frame `>n1:1 n2:2<` does
not parse into the values `[1, 2]`: the reader never splits a token at `':'`
(and maintains no label set at all); both tokens fail float conversion and the
raw strings are appended instead. -/
theorem named_tokens_not_parsed :
    appendedRow (runBody true (">n1:1 n2:2<".data)) =
      some (.error ["n1:1".data, "n2:2".data])
    ∧ runBody true (">n1:1 n2:2<".data) ≠ .converted [.finite 1, .finite 2] := by
  decide

/-- Claim C3, counterexample.  In `a<b>1 2` the only `'<'` (index 1) lies
before the last `'>'` (index 3), so the claim demands the frame be discarded
with reason missing-close-delimiter; instead the code takes the first `'<'` of
the whole text, slices an empty payload, and the frame reaches the data
append as a failed conversion. -/
theorem close_found_before_open :
    findIdxCh '<' (pyStrip ("a<b>1 2".data)) = some 1
    ∧ rfindIdx '>' (pyStrip ("a<b>1 2".data)) = some 3
    ∧ runBody true ("a<b>1 2".data) = .convertFailed [[]]
    ∧ runBody true ("a<b>1 2".data) ≠ .noClose := by
  decide

/-- Claim C4.  Without a required trailing delimiter the claim says the
payload of `>1 2` is `1 2` (to the end of the text); the code instead uses
`len(rawdata[l+1:])` as an absolute end index, truncating the payload to
`1 ` whose empty second token fails float conversion. -/
theorem trailing_payload_truncated :
    runBody false (">1 2".data) = .convertFailed [['1'], []]
    ∧ runBody false (">1 2".data) ≠ .converted [.finite 1, .finite 2] := by
  decide

/-- Claim C5.  The opening marker is located as the last `'>'` of the trimmed
text (the index `rfind` returns holds `'>'` and no later index does), and a
nonempty frame containing no `'>'` is discarded with a warning: the result is
the missing-open-delimiter skip and nothing is appended to the data. -/
theorem missing_open_discards_frame :
    (∀ (rb : Bool) (raw : List Char), pyStrip raw ≠ [] → '>' ∉ pyStrip raw →
      runBody rb raw = .noOpen
      ∧ appendedRow (runBody rb raw) = none
      ∧ warns (runBody rb raw) = true)
    ∧ (∀ (cs : List Char) (i : Nat), rfindIdx '>' cs = some i →
      cs.get? i = some '>' ∧ ∀ j, i < j → cs.get? j ≠ some '>') := by
  constructor
  · intro rb raw h1 h2
    have h0 : ¬((pyStrip raw).length = 0) := by
      intro hc
      exact h1 (List.length_eq_zero.mp hc)
    have hr : rfindIdx '>' (pyStrip raw) = none := rfindIdx_eq_none_of_not_mem '>' _ h2
    have hb : runBody rb raw = .noOpen := by simp [runBody, h0, hr]
    exact ⟨hb, by rw [hb]; rfl, by rw [hb]; rfl⟩
  · exact rfindIdx_last '>'

/-- Witness for C5 at the concrete frame `abc`. -/
theorem missing_open_discards_frame_witness :
    runBody true ("abc".data) = .noOpen :=
  (missing_open_discards_frame.1 true ("abc".data) (by decide) (by decide)).1

/-- Claim C3, amended.  With `requirebrackets` set, the nonempty frames
containing `'>'` that are discarded with reason missing-close-delimiter are
exactly those with no `'<'` anywhere in the trimmed text; the close marker is
searched from the start of the text, not after the opening marker. -/
theorem noClose_iff_no_close_anywhere (raw : List Char)
    (h1 : pyStrip raw ≠ []) (h2 : '>' ∈ pyStrip raw) :
    runBody true raw = .noClose ↔ '<' ∉ pyStrip raw := by
  have h0 : ¬((pyStrip raw).length = 0) := by
    intro hc
    exact h1 (List.length_eq_zero.mp hc)
  rcases Option.isSome_iff_exists.mp (rfindIdx_isSome_of_mem '>' _ h2) with ⟨l, hl⟩
  rcases hf : findIdxCh '<' (pyStrip raw) with _ | r
  · have hnm : '<' ∉ pyStrip raw := by
      intro hc
      have := findIdxCh_isSome_of_mem '<' _ hc
      rw [hf] at this
      simp at this
    constructor
    · intro _
      exact hnm
    · intro _
      simp [runBody, h0, hl, hf]
  · have hm : '<' ∈ pyStrip raw := by
      by_contra hn
      rw [findIdxCh_eq_none_of_not_mem '<' _ hn] at hf
      cases hf
    constructor
    · intro hrun
      exact absurd hrun (runBody_ne_noClose true raw l r h0 hl (by simpa using hf))
    · intro hnot
      exact absurd hm hnot

/-- Witness for C3's amended claim at `>1 2` (no `'<'` anywhere). -/
theorem noClose_iff_no_close_anywhere_witness :
    runBody true (">1 2".data) = .noClose :=
  (noClose_iff_no_close_anywhere (">1 2".data) (by decide) (by decide)).mpr (by decide)

/-- Claim C2, amended.  For a well-formed two-token frame `>t1 t2<` whose bare
tokens both float-convert (the reader supports no `name:value` tokens and no
label set), the parsed row is exactly the two values in frame order. -/
theorem bare_value_frame_parses_in_order
    (t1 t2 : List Char) (f1 f2 : PyFloat)
    (h1 : pyFloat t1 = some f1) (h2 : pyFloat t2 = some f2)
    (hg1 : '>' ∉ t1) (hg2 : '>' ∉ t2)
    (hl1 : '<' ∉ t1) (hl2 : '<' ∉ t2)
    (hs1 : ' ' ∉ t1) (hs2 : ' ' ∉ t2) :
    runBody true ('>' :: ((t1 ++ ' ' :: t2) ++ ['<'])) = .converted [f1, f2]
    ∧ appendedRow (runBody true ('>' :: ((t1 ++ ' ' :: t2) ++ ['<']))) =
        some (.ok [f1, f2]) := by
  have hstrip : pyStrip ('>' :: ((t1 ++ ' ' :: t2) ++ ['<'])) =
      '>' :: ((t1 ++ ' ' :: t2) ++ ['<']) :=
    pyStrip_of_ends '>' '<' (t1 ++ ' ' :: t2) (by decide) (by decide)
  have hgm : '>' ∉ (t1 ++ ' ' :: t2) ++ ['<'] := by
    intro hc
    rcases List.mem_append.mp hc with hc1 | hc2
    · rcases List.mem_append.mp hc1 with hd1 | hd2
      · exact hg1 hd1
      · rcases List.mem_cons.mp hd2 with he1 | he2
        · exact absurd he1 (by decide)
        · exact hg2 he2
    · rcases List.mem_cons.mp hc2 with he1 | he2
      · exact absurd he1 (by decide)
      · simp at he2
  have hlm : '<' ∉ '>' :: (t1 ++ ' ' :: t2) := by
    intro hc
    rcases List.mem_cons.mp hc with he0 | hc1
    · exact absurd he0 (by decide)
    · rcases List.mem_append.mp hc1 with hd1 | hd2
      · exact hl1 hd1
      · rcases List.mem_cons.mp hd2 with he1 | he2
        · exact absurd he1 (by decide)
        · exact hl2 he2
  have hl0 : rfindIdx '>' (pyStrip ('>' :: ((t1 ++ ' ' :: t2) ++ ['<']))) = some 0 := by
    rw [hstrip]
    exact rfindIdx_cons_self_of_not_mem '>' _ hgm
  have hr0 : findIdxCh '<' (pyStrip ('>' :: ((t1 ++ ' ' :: t2) ++ ['<']))) =
      some ('>' :: (t1 ++ ' ' :: t2)).length := by
    rw [hstrip]
    have := findIdxCh_append_last '<' ('>' :: (t1 ++ ' ' :: t2)) hlm
    simpa using this
  have h0 : ¬((pyStrip ('>' :: ((t1 ++ ' ' :: t2) ++ ['<']))).length = 0) := by
    rw [hstrip]
    simp
  have hmain := runBody_parse_result true ('>' :: ((t1 ++ ' ' :: t2) ++ ['<'])) 0
    ('>' :: (t1 ++ ' ' :: t2)).length h0 hl0 (by simpa using hr0)
  have hslice : ((pyStrip ('>' :: ((t1 ++ ' ' :: t2) ++ ['<']))).take
      ('>' :: (t1 ++ ' ' :: t2)).length).drop (0 + 1) = t1 ++ ' ' :: t2 := by
    rw [hstrip]
    have hassoc : ('>' :: ((t1 ++ ' ' :: t2) ++ ['<'])) =
        ('>' :: (t1 ++ ' ' :: t2)) ++ ['<'] := by simp
    rw [hassoc, List.take_left]
    simp
  rw [hslice] at hmain
  rw [splitSpace_append t2 t1 hs1, splitSpace_no_space t2 hs2] at hmain
  have hfa : floatAll [t1, t2] = some [f1, f2] := by
    simp [floatAll, h1, h2]
  rw [hfa] at hmain
  exact ⟨hmain, by rw [hmain]; rfl⟩

/-- Witness for C2's amended claim at the frame `>1 2<`. -/
theorem bare_value_frame_parses_in_order_witness :
    runBody true ('>' :: (("1".data ++ ' ' :: "2".data) ++ ['<'])) =
      .converted [.finite 1, .finite 2] :=
  (bare_value_frame_parses_in_order "1".data "2".data (.finite 1) (.finite 2)
    (by decide) (by decide) (by decide) (by decide) (by decide) (by decide)
    (by decide) (by decide)).1

/-- Claim C6.  A read whose decoded text strips to empty is skipped silently:
the iteration appends nothing, emits no warning, and leaves the package
indicator untouched; the loop goes on to the next read. -/
theorem empty_line_silent_skip (rb : Bool) (raw : List Char)
    (h : pyStrip raw = []) :
    runBody rb raw = .emptyLine
    ∧ appendedRow (runBody rb raw) = none
    ∧ warns (runBody rb raw) = false
    ∧ indicatorSet (runBody rb raw) = none := by
  simp [runBody, h, appendedRow, warns, indicatorSet]

/-- Witness for C6 at the timeout read `""` and at the blank line `" \t"`. -/
theorem empty_line_silent_skip_witness :
    runBody true ("".data) = .emptyLine ∧ runBody false (" \t".data) = .emptyLine :=
  ⟨(empty_line_silent_skip true ("".data) (by decide)).1,
   (empty_line_silent_skip false (" \t".data) (by decide)).1⟩

/-- Claim C7.  When opening the serial device fails, `connectToSerial` makes
exactly one open attempt, warns, returns -1, starts no reader thread and
leaves the state untouched; and a reader loop whose connected flag is false
produces no sample at all, so nothing is ever retried or reconnected. -/
theorem open_failure_no_thread_no_retry :
    (∀ st : LdsState,
      (connectToSerial false st).threadStarted = false
      ∧ (connectToSerial false st).state = st
      ∧ (connectToSerial false st).warned = true
      ∧ (connectToSerial false st).retval = some (-1)
      ∧ (connectToSerial false st).openAttempts = 1)
    ∧ (∀ (rb : Bool) (line : List Char) (rest : List IterIn),
        run ({ flag := false, requireBrackets := rb, line := line } :: rest) = []) :=
  ⟨fun _ => ⟨rfl, rfl, rfl, rfl, rfl⟩, fun _ _ _ => rfl⟩

/-- Claim C8.  `disconnectFromSerial` on a connected state closes the port,
shows the label, clears `IS_SERIAL_CONNECTED` and only then joins the reader
thread (the clear strictly precedes the join in the effect order; no
generator thread exists to join), and a reader loop that samples the cleared
flag at its head exits at once, appending nothing. -/
theorem stop_clears_flag_then_joins :
    (∀ th : Option Unit,
      disconnectFromSerial { IS_SERIAL_CONNECTED := true, io_thread := th } =
        ({ IS_SERIAL_CONNECTED := false, io_thread := th },
         [StopEvent.closeSerial, StopEvent.setLabelDisconnected, StopEvent.clearFlag]
           ++ (if th.isSome then [StopEvent.joinReader] else [])))
    ∧ ((disconnectFromSerial { IS_SERIAL_CONNECTED := true, io_thread := some () }).2.indexOf
          StopEvent.clearFlag
        < (disconnectFromSerial { IS_SERIAL_CONNECTED := true, io_thread := some () }).2.indexOf
          StopEvent.joinReader)
    ∧ (∀ (rb : Bool) (line : List Char) (rest : List IterIn),
        run ({ flag := false, requireBrackets := rb, line := line } :: rest) = []) := by
  refine ⟨fun th => ?_, by decide, fun _ _ _ => rfl⟩
  cases th <;> rfl

/-- Claim C9.  One iteration of the (spec-modelled) SyntheticGenerator loop
sets the next sleep target to `max(floor, delay + err)` with
`err = actual - st`, and that target never falls below the positive floor. -/
theorem gen_sleep_target_clamped (ratePerSecond : ℚ) (wrap : Nat) (s : GenState) (now : ℚ) :
    (genStep ratePerSecond wrap s now).1.st =
      max genFloor (genDelay ratePerSecond + ((now - s.lastT) - s.st))
    ∧ genFloor ≤ (genStep ratePerSecond wrap s now).1.st
    ∧ 0 < genFloor :=
  ⟨rfl, le_max_left _ _, by norm_num [genFloor]⟩

/-- The close loop of `closeAllSerialPorts` swallows every per-port failure. -/
theorem closePortsLoop_ok {α ε : Type} (close : α → Except ε Unit) :
    ∀ ports : List α, closePortsLoop close ports = .ok () := by
  intro ports
  induction ports with
  | nil => rfl
  | cons p rest ih =>
    rcases h : close p with u | e <;> simp [closePortsLoop, tryClosePort, h, ih]

/-- Claim C10.  `closeAllSerialPorts` returns normally with
`IS_SERIAL_CONNECTED = False` for every enumerated port list and every
close behavior — exceptions raised while closing a port are swallowed by the
bare `except: continue`, and the flag is cleared unconditionally. -/
theorem closeAllSerialPorts_swallows_and_clears {α ε : Type}
    (ports : List α) (close : α → Except ε Unit) :
    closeAllSerialPorts ports close = .ok false := by
  simp [closeAllSerialPorts, closePortsLoop_ok]

end LiveSerialPlotter
